import Mathlib

/-!
Verification of the bw-cli ECS service tool against its specification.

The development shallowly embeds the Go sources:
  internal/aws/ecs.go       (service listing, batched describe, update, restart,
                             deployment status, poll loop)
  internal/aws/metrics.go   (CloudWatch metric queries)
  internal/ui/ui.go         (filtering, restart-all fan-out, desired-count prompt)

External AWS calls are modelled as oracle functions passed in as arguments:
`none` (or `.error`) models a failed transport call, `some`/`.ok` a successful
response. Machine integers are modelled as `Int` with explicit wrapping where
the Go code converts between widths. Floating-point metric values are carried
opaquely (never computed with), so they are modelled by `Rat`.
-/

/-! ## Data model (pkg/types.go and the ECS SDK shapes used by the code) -/

/-- One deployment entry of an ECS service, as consumed by
`GetServiceDeploymentStatus` (ecs.go): rollout state, running/desired counts
and the raw provider status string. -/
structure EcsDeployment where
  rolloutState : String
  runningCount : Int
  desiredCount : Int
  status : String
deriving Repr, DecidableEq

/-- The fields of an ECS `types.Service` that the code reads: name, counts,
raw status and the deployments list. -/
structure EcsService where
  serviceName : String
  runningCount : Int
  desiredCount : Int
  status : String
  deployments : List EcsDeployment
deriving Repr, DecidableEq

/-- `pkg.ServiceDetails`: the record the tool builds for each service.
The two utilization fields default to the Go zero value 0 when metrics are
absent. -/
structure ServiceDetails where
  cluster : String
  serviceName : String
  runningCount : Int
  desiredCount : Int
  status : String
  cpuUtilization : Rat
  memoryUtilization : Rat
deriving Repr, DecidableEq

/-- The Go zero value of `pkg.ServiceDetails` (produced by `make` in the
poll loop of ecs.go when a per-service describe fails). -/
def ServiceDetails.zeroValue : ServiceDetails :=
  { cluster := "", serviceName := "", runningCount := 0, desiredCount := 0,
    status := "", cpuUtilization := 0, memoryUtilization := 0 }

/-! ## Batching (ecs.go `describeServicesInBatches`) -/

/-- `maxDescribeServicesBatchSize` from ecs.go:16. -/
def maxDescribeServicesBatchSize : Nat := 10

/-- Fuel-driven chunking helper: splits a list into consecutive chunks of at
most `maxDescribeServicesBatchSize` elements, mirroring the loop
`for i := 0; i < len(serviceArns); i += maxDescribeServicesBatchSize` of
ecs.go:131-137. The fuel is only there to make the recursion structural; it
is always instantiated with the list length, which suffices because each
step consumes at least one element. -/
def chunksFuel {α : Type} : Nat → List α → List (List α)
  | _, [] => []
  | 0, l => [l]
  | fuel + 1, a :: l =>
      ((a :: l).take maxDescribeServicesBatchSize) ::
        chunksFuel fuel ((a :: l).drop maxDescribeServicesBatchSize)

/-- The batch partition used by `describeServicesInBatches`: consecutive
chunks of at most 10 service identifiers, one `DescribeServices` call each. -/
def chunks10 {α : Type} (l : List α) : List (List α) := chunksFuel l.length l

/-- Record construction of ecs.go:150-156: the plain (metrics-free) variant
fills the five descriptive fields and leaves the utilization fields at the
Go zero value. -/
def mkServiceDetails (cluster : String) (svc : EcsService) : ServiceDetails :=
  { cluster := cluster, serviceName := svc.serviceName,
    runningCount := svc.runningCount, desiredCount := svc.desiredCount,
    status := svc.status, cpuUtilization := 0, memoryUtilization := 0 }

/-- The loop body of ecs.go:143-157 for one batch: a failed
`DescribeServices` call is logged and skipped (`continue`), contributing
zero records; a successful call contributes one record per returned
service. -/
def describeBatch (describe : List String → Option (List EcsService))
    (cluster : String) (batch : List String) : List ServiceDetails :=
  match describe batch with
  | none => []
  | some output => output.map (mkServiceDetails cluster)

/-- `describeServicesInBatches` (ecs.go:124-161). `listServicesResult` is the
outcome of the `listServices` pagination; `describe` is the
`DescribeServices` transport oracle, invoked once per batch (`none` models a
failed call). The records of successful batches are appended in batch
order. -/
def describeServicesInBatches (listServicesResult : Except String (List String))
    (describe : List String → Option (List EcsService)) (cluster : String) :
    Except String (List ServiceDetails) :=
  match listServicesResult with
  | .error e => .error e
  | .ok serviceArns =>
    if serviceArns.isEmpty then .ok []
    else .ok ((chunks10 serviceArns).flatMap (describeBatch describe cluster))

/-! ## Chunking lemmas -/

theorem chunksFuel_flatten {α : Type} :
    ∀ (fuel : Nat) (l : List α), l.length ≤ fuel →
      (chunksFuel fuel l).flatten = l := by
  intro fuel
  induction fuel with
  | zero =>
    intro l hl
    cases l with
    | nil => rfl
    | cons a l => simp at hl
  | succ n ih =>
    intro l hl
    cases l with
    | nil => rfl
    | cons a l =>
      simp only [List.length_cons] at hl
      simp only [chunksFuel, List.flatten_cons]
      rw [ih]
      · exact List.take_append_drop maxDescribeServicesBatchSize (a :: l)
      · simp only [List.length_drop, List.length_cons, maxDescribeServicesBatchSize]
        omega

/-- The chunks of `chunks10` concatenate back to the input list: the
partition is into consecutive chunks covering the whole input. -/
theorem chunks10_flatten {α : Type} (l : List α) : (chunks10 l).flatten = l :=
  chunksFuel_flatten l.length l (Nat.le_refl _)

theorem chunksFuel_chunk_le {α : Type} :
    ∀ (fuel : Nat) (l : List α), l.length ≤ fuel →
      ∀ b ∈ chunksFuel fuel l, b.length ≤ maxDescribeServicesBatchSize := by
  intro fuel
  induction fuel with
  | zero =>
    intro l hl b hb
    cases l with
    | nil => simp [chunksFuel] at hb
    | cons a l => simp at hl
  | succ n ih =>
    intro l hl b hb
    cases l with
    | nil => simp [chunksFuel] at hb
    | cons a l =>
      simp only [List.length_cons] at hl
      simp only [chunksFuel, List.mem_cons] at hb
      rcases hb with rfl | hb
      · simp [maxDescribeServicesBatchSize]
      · refine ih _ ?_ b hb
        simp only [List.length_drop, List.length_cons, maxDescribeServicesBatchSize]
        omega

/-- Every chunk produced by `chunks10` has at most 10 elements: no
`DescribeServices` call carries more than the provider limit. -/
theorem chunks10_chunk_le {α : Type} (l : List α) :
    ∀ b ∈ chunks10 l, b.length ≤ maxDescribeServicesBatchSize :=
  chunksFuel_chunk_le l.length l (Nat.le_refl _)

/-- `chunks10` of a nonempty list is nonempty, and of `[]` is `[]`. -/
theorem chunks10_eq_nil_iff {α : Type} (l : List α) :
    chunks10 l = [] ↔ l = [] := by
  cases l with
  | nil => simp [chunks10, chunksFuel]
  | cons a l => simp [chunks10, chunksFuel]

/-- Congruence for `flatMap` over a chunk list: if the transport oracle
answers every chunk successfully, each per-chunk `describeBatch` reduces to
the successful output mapped into records. -/
theorem flatMap_describeBatch_eq
    (describe : List String → Option (List EcsService))
    (output : List String → List EcsService) (cluster : String) :
    ∀ (cs : List (List String)), (∀ b ∈ cs, describe b = some (output b)) →
      cs.flatMap (describeBatch describe cluster) =
      cs.flatMap (fun batch => (output batch).map (mkServiceDetails cluster)) := by
  intro cs
  induction cs with
  | nil => intro _; rfl
  | cons c cs ih =>
    intro h
    simp only [List.flatMap_cons]
    rw [ih (fun b hb => h b (List.mem_cons_of_mem c hb))]
    simp only [describeBatch, h c (List.mem_cons_self c cs)]

/-- C1: `describeServicesInBatches` partitions the service identifiers into
consecutive chunks of at most 10, issues one `DescribeServices` call per
chunk, and when no chunk fails the returned record list is the concatenation
of the per-chunk outputs in chunk order. -/
theorem describeServicesInBatches_chunking
    (serviceArns : List String) (cluster : String)
    (describe : List String → Option (List EcsService))
    (output : List String → List EcsService)
    (hok : ∀ b ∈ chunks10 serviceArns, describe b = some (output b)) :
    (∀ b ∈ chunks10 serviceArns, b.length ≤ maxDescribeServicesBatchSize) ∧
    (chunks10 serviceArns).flatten = serviceArns ∧
    describeServicesInBatches (.ok serviceArns) describe cluster =
      .ok ((chunks10 serviceArns).flatMap
        (fun batch => (output batch).map (mkServiceDetails cluster))) := by
  refine ⟨chunks10_chunk_le serviceArns, chunks10_flatten serviceArns, ?_⟩
  simp only [describeServicesInBatches]
  cases h : serviceArns.isEmpty with
  | true =>
    have : serviceArns = [] := List.isEmpty_iff.mp h
    subst this
    simp [chunks10, chunksFuel]
  | false =>
    simp only [Bool.false_eq_true, if_false]
    rw [flatMap_describeBatch_eq describe output cluster _ hok]

/-- Witness for C1 at a concrete 12-identifier input (two chunks: 10 + 2). -/
theorem describeServicesInBatches_chunking_witness :
    describeServicesInBatches
      (.ok ((List.range 12).map (fun n => "svc" ++ toString n)))
      (fun batch => some (batch.map (fun a => ⟨a, 1, 1, "ACTIVE", []⟩)))
      "cluster1" =
    .ok ((chunks10 ((List.range 12).map (fun n => "svc" ++ toString n))).flatMap
      (fun batch => (batch.map (fun a => (⟨a, 1, 1, "ACTIVE", []⟩ : EcsService))).map
        (mkServiceDetails "cluster1"))) := by
  exact (describeServicesInBatches_chunking
    ((List.range 12).map (fun n => "svc" ++ toString n)) "cluster1"
    (fun batch => some (batch.map (fun a => ⟨a, 1, 1, "ACTIVE", []⟩)))
    (fun batch => batch.map (fun a => ⟨a, 1, 1, "ACTIVE", []⟩))
    (fun _ _ => rfl)).2.2

/-- C3: if exactly one chunk of a multi-chunk `describeServicesInBatches`
call fails, the function still returns the records of every other chunk in
order and omits only the failed chunk's records; the total record count
degrades by exactly the failed chunk's expected size, and chunks after the
failed one are still processed. -/
theorem describeServicesInBatches_one_failed_chunk
    (serviceArns : List String) (cluster : String)
    (describe : List String → Option (List EcsService))
    (output : List String → List EcsService)
    (pre post : List (List String)) (bad : List String)
    (hchunks : chunks10 serviceArns = pre ++ bad :: post)
    (hbad : describe bad = none)
    (hok : ∀ b ∈ pre ++ post, describe b = some (output b)) :
    describeServicesInBatches (.ok serviceArns) describe cluster =
      .ok (pre.flatMap (fun batch => (output batch).map (mkServiceDetails cluster)) ++
           post.flatMap (fun batch => (output batch).map (mkServiceDetails cluster))) ∧
    (pre.flatMap (fun batch => (output batch).map (mkServiceDetails cluster)) ++
     post.flatMap (fun batch => (output batch).map (mkServiceDetails cluster))).length =
      ((pre ++ bad :: post).flatMap
        (fun batch => (output batch).map (mkServiceDetails cluster))).length -
        ((output bad).map (mkServiceDetails cluster)).length := by
  have hne : serviceArns ≠ [] := by
    intro h
    subst h
    rw [(chunks10_eq_nil_iff ([] : List String)).mpr rfl] at hchunks
    exact List.cons_ne_nil bad post (List.append_eq_nil.mp hchunks.symm).2
  constructor
  · simp only [describeServicesInBatches, List.isEmpty_iff]
    rw [if_neg hne, hchunks]
    simp only [List.flatMap_append, List.flatMap_cons]
    rw [flatMap_describeBatch_eq describe output cluster pre
          (fun b hb => hok b (List.mem_append_left post hb)),
        flatMap_describeBatch_eq describe output cluster post
          (fun b hb => hok b (List.mem_append_right pre hb))]
    simp only [describeBatch, hbad, List.nil_append]
  · simp only [List.flatMap_append, List.flatMap_cons, List.length_append]
    omega

/-- Witness for C3: 12 identifiers split into two chunks; the first chunk's
call fails, the second chunk's two records are still returned. -/
theorem describeServicesInBatches_one_failed_chunk_witness :
    describeServicesInBatches
      (.ok ((List.range 12).map (fun n => "svc" ++ toString n)))
      (fun batch => if batch.length == 10 then none
        else some (batch.map (fun a => ⟨a, 1, 1, "ACTIVE", []⟩)))
      "cluster1" =
    .ok ([] ++ [((List.range 12).map (fun n => "svc" ++ toString n)).drop 10].flatMap
      (fun batch => (batch.map (fun a => (⟨a, 1, 1, "ACTIVE", []⟩ : EcsService))).map
        (mkServiceDetails "cluster1"))) := by
  exact (describeServicesInBatches_one_failed_chunk
    ((List.range 12).map (fun n => "svc" ++ toString n)) "cluster1"
    (fun batch => if batch.length == 10 then none
      else some (batch.map (fun a => ⟨a, 1, 1, "ACTIVE", []⟩)))
    (fun batch => batch.map (fun a => ⟨a, 1, 1, "ACTIVE", []⟩))
    [] [((List.range 12).map (fun n => "svc" ++ toString n)).drop 10]
    (((List.range 12).map (fun n => "svc" ++ toString n)).take 10)
    (by rfl) (by rfl) (by decide)).1

/-! ## Aggregation (ecs.go `GetAllServiceDetails`) -/

/-- The goroutine body of ecs.go:42-49 for one cluster: the branch runs
`describeServicesInBatches`; on error it sends nothing to the channel
(contributing zero records), otherwise it sends its records. -/
def clusterBranch (listServicesFor : String → Except String (List String))
    (describeFor : String → List String → Option (List EcsService))
    (cluster : String) : List ServiceDetails :=
  match describeServicesInBatches (listServicesFor cluster)
      (describeFor cluster) cluster with
  | .error _ => []
  | .ok services => services

/-- `GetAllServiceDetails` (ecs.go:31-61). A goroutine per cluster runs
`clusterBranch`, and the channel contents are concatenated. The
nondeterministic fan-in completion order is modelled by the cluster listing
order (one linearization of the race; the claims proved here concern
membership and error behaviour, which are order-independent). -/
def GetAllServiceDetails (listClustersResult : Except String (List String))
    (listServicesFor : String → Except String (List String))
    (describeFor : String → List String → Option (List EcsService)) :
    Except String (List ServiceDetails) :=
  match listClustersResult with
  | .error e => .error e
  | .ok clusters =>
    .ok (clusters.flatMap (clusterBranch listServicesFor describeFor))

theorem getAllServiceDetails_eq_flatMap
    (clusters : List String)
    (listServicesFor : String → Except String (List String))
    (describeFor : String → List String → Option (List EcsService)) :
    GetAllServiceDetails (.ok clusters) listServicesFor describeFor =
      .ok (clusters.flatMap (clusterBranch listServicesFor describeFor)) := rfl

/-- C4: when listing clusters succeeds, `GetAllServiceDetails` always
succeeds; a cluster with an empty service list contributes zero records, a
cluster whose listing fails contributes zero records without failing the
aggregation (removing such a cluster leaves the result unchanged), and when
every branch succeeds the result is the concatenation of the branches'
records. -/
theorem getAllServiceDetails_best_effort
    (clusters pre post : List String) (c : String)
    (records : String → List ServiceDetails)
    (listServicesFor : String → Except String (List String))
    (describeFor : String → List String → Option (List EcsService)) :
    (∃ result, GetAllServiceDetails (.ok clusters) listServicesFor describeFor =
      .ok result) ∧
    (listServicesFor c = .ok [] →
      GetAllServiceDetails (.ok (pre ++ c :: post)) listServicesFor describeFor =
      GetAllServiceDetails (.ok (pre ++ post)) listServicesFor describeFor) ∧
    (∀ e, listServicesFor c = .error e →
      GetAllServiceDetails (.ok (pre ++ c :: post)) listServicesFor describeFor =
      GetAllServiceDetails (.ok (pre ++ post)) listServicesFor describeFor) ∧
    ((∀ cl ∈ clusters,
        describeServicesInBatches (listServicesFor cl) (describeFor cl) cl =
          .ok (records cl)) →
      GetAllServiceDetails (.ok clusters) listServicesFor describeFor =
        .ok (clusters.flatMap records)) := by
  refine ⟨⟨clusters.flatMap (clusterBranch listServicesFor describeFor),
    getAllServiceDetails_eq_flatMap clusters listServicesFor describeFor⟩, ?_, ?_, ?_⟩
  · intro hc
    rw [getAllServiceDetails_eq_flatMap, getAllServiceDetails_eq_flatMap]
    simp only [List.flatMap_append, List.flatMap_cons]
    have : clusterBranch listServicesFor describeFor c = [] := by
      simp [clusterBranch, describeServicesInBatches, hc]
    rw [this, List.nil_append]
  · intro e hc
    rw [getAllServiceDetails_eq_flatMap, getAllServiceDetails_eq_flatMap]
    simp only [List.flatMap_append, List.flatMap_cons]
    have : clusterBranch listServicesFor describeFor c = [] := by
      simp [clusterBranch, describeServicesInBatches, hc]
    rw [this, List.nil_append]
  · intro hok
    rw [getAllServiceDetails_eq_flatMap]
    congr 1
    apply List.flatMap_congr
    intro cl hcl
    simp [clusterBranch, hok cl hcl]

/-- Witness for C4: the spec's two-cluster test — one cluster with zero
services and one with two services yields exactly the two records of the
nonempty cluster, with no aggregation error. -/
theorem getAllServiceDetails_best_effort_witness :
    GetAllServiceDetails (.ok (["empty"] ++ ["busy"]))
      (fun cl => if cl == "busy" then .ok ["s1", "s2"] else .ok [])
      (fun _cl batch => some (batch.map (fun a => ⟨a, 1, 1, "ACTIVE", []⟩))) =
    .ok [mkServiceDetails "busy" ⟨"s1", 1, 1, "ACTIVE", []⟩,
         mkServiceDetails "busy" ⟨"s2", 1, 1, "ACTIVE", []⟩] := by
  have h := (getAllServiceDetails_best_effort (["empty"] ++ ["busy"]) [] ["busy"] "empty"
    (fun cl => if cl == "busy"
      then [mkServiceDetails "busy" ⟨"s1", 1, 1, "ACTIVE", []⟩,
            mkServiceDetails "busy" ⟨"s2", 1, 1, "ACTIVE", []⟩] else [])
    (fun cl => if cl == "busy" then .ok ["s1", "s2"] else .ok [])
    (fun _cl batch => some (batch.map (fun a => ⟨a, 1, 1, "ACTIVE", []⟩)))).2.2.2
    (by
      intro cl hcl
      simp only [List.mem_append, List.mem_singleton] at hcl
      rcases hcl with rfl | rfl <;> rfl)
  exact h.trans (by rfl)

/-! ## Deployment status (ecs.go `GetServiceDeploymentStatus`) -/

/-- The string built by `fmt.Sprintf("Deploying (%d/%d)", ...)` at
ecs.go:216. -/
def deployingMessage (running desired : Int) : String :=
  "Deploying (" ++ toString running ++ "/" ++ toString desired ++ ")"

/-- `GetServiceDeploymentStatus` (ecs.go:198-225) applied to the outcome of
the `DescribeServices` call: `none` models a failed call. With no services
or no deployments the result is "Unknown"; otherwise the first deployment's
rollout state is switched on, with the `COMPLETED`, running-not-equal case
and every unlisted rollout state falling through to the raw deployment
status string. -/
def GetServiceDeploymentStatus (describeResult : Option (List EcsService)) :
    Except String String :=
  match describeResult with
  | none => .error "error describing service"
  | some services =>
    match services with
    | [] => .ok "Unknown"
    | svc :: _ =>
      match svc.deployments with
      | [] => .ok "Unknown"
      | d :: _ =>
        if d.rolloutState = "IN_PROGRESS" then
          .ok (deployingMessage d.runningCount d.desiredCount)
        else if d.rolloutState = "COMPLETED" then
          if d.runningCount = d.desiredCount then .ok "Stable" else .ok d.status
        else if d.rolloutState = "FAILED" then .ok "Deployment Failed"
        else .ok d.status

/-- C2: the deployment-status string is a pure function of
(rolloutState, runningCount, desiredCount, rawStatus): IN_PROGRESS yields
"Deploying (running/desired)", COMPLETED with running equal to desired
yields "Stable", COMPLETED with running not equal yields the raw status,
FAILED yields "Deployment Failed", and an empty service or deployment list
yields "Unknown". -/
theorem getServiceDeploymentStatus_mapping
    (running desired rc dc : Int) (raw name st : String)
    (rest : List EcsDeployment) (others : List EcsService) :
    GetServiceDeploymentStatus (some []) = .ok "Unknown" ∧
    GetServiceDeploymentStatus (some (⟨name, rc, dc, st, []⟩ :: others)) =
      .ok "Unknown" ∧
    GetServiceDeploymentStatus
        (some (⟨name, rc, dc, st, ⟨"IN_PROGRESS", running, desired, raw⟩ :: rest⟩ :: others)) =
      .ok (deployingMessage running desired) ∧
    GetServiceDeploymentStatus
        (some (⟨name, rc, dc, st, ⟨"COMPLETED", running, running, raw⟩ :: rest⟩ :: others)) =
      .ok "Stable" ∧
    (running ≠ desired →
      GetServiceDeploymentStatus
          (some (⟨name, rc, dc, st, ⟨"COMPLETED", running, desired, raw⟩ :: rest⟩ :: others)) =
        .ok raw) ∧
    GetServiceDeploymentStatus
        (some (⟨name, rc, dc, st, ⟨"FAILED", running, desired, raw⟩ :: rest⟩ :: others)) =
      .ok "Deployment Failed" := by
  refine ⟨rfl, rfl, ?_, ?_, ?_, ?_⟩
  · simp [GetServiceDeploymentStatus]
  · simp [GetServiceDeploymentStatus]
  · intro hne
    simp [GetServiceDeploymentStatus, hne]
  · simp [GetServiceDeploymentStatus]

/-- Witness for C2 at concrete inputs, including the COMPLETED case with
running count 1 and desired count 2 falling through to the raw status. -/
theorem getServiceDeploymentStatus_mapping_witness :
    GetServiceDeploymentStatus
        (some [⟨"api", 1, 2, "ACTIVE", [⟨"COMPLETED", 1, 2, "PRIMARY"⟩]⟩]) =
      .ok "PRIMARY" ∧
    deployingMessage 1 2 = "Deploying (1/2)" := by
  refine ⟨?_, by decide⟩
  exact (getServiceDeploymentStatus_mapping 1 2 1 2 "PRIMARY" "api" "ACTIVE"
    [] []).2.2.2.2.1 (by decide)

/-! ## Restart operations (ecs.go `RestartService`, ui.go `restartAllServices`) -/

/-- `RestartService` (ecs.go:180-193): issues a force-new-deployment
`UpdateService` call; `restartFails` is the transport oracle for that call
keyed by service name and cluster. -/
def RestartService (restartFails : String → String → Bool)
    (serviceName cluster : String) : Option String :=
  if restartFails serviceName cluster then
    some ("failed to restart service " ++ serviceName)
  else none

/-- `restartAllServices` (ui.go:487-516): one `RestartService` call per
visible service, collecting the names whose calls failed. The Go version
fans the calls out concurrently and gathers failures over a channel; the
model returns the list of attempted calls (first component) and the failed
names (second component) in service order, one linearization of the
channel's nondeterministic gather order. -/
def restartAllServices (restartFails : String → String → Bool) :
    List ServiceDetails → List (String × String) × List String
  | [] => ([], [])
  | svc :: rest =>
    let r := restartAllServices restartFails rest
    match RestartService restartFails svc.serviceName svc.cluster with
    | some _ => ((svc.serviceName, svc.cluster) :: r.1, svc.serviceName :: r.2)
    | none => ((svc.serviceName, svc.cluster) :: r.1, r.2)

/-- C6: a restart-all intent issues a `RestartService` call for every
visible service (no individual failure short-circuits the others), and the
reported failed set is exactly the names of the services whose calls
failed. -/
theorem restartAllServices_fanout
    (restartFails : String → String → Bool) (services : List ServiceDetails) :
    (restartAllServices restartFails services).1 =
      services.map (fun svc => (svc.serviceName, svc.cluster)) ∧
    (restartAllServices restartFails services).2 =
      (services.filter (fun svc => restartFails svc.serviceName svc.cluster)).map
        (fun svc => svc.serviceName) := by
  induction services with
  | nil => exact ⟨rfl, rfl⟩
  | cons svc rest ih =>
    simp only [restartAllServices, RestartService, List.map_cons, List.filter_cons]
    cases h : restartFails svc.serviceName svc.cluster with
    | true => simp [h, ih.1, ih.2]
    | false => simp [h, ih.1, ih.2]

/-- Witness for C6: the spec's three-service test where only the middle
call fails — all three calls are attempted and the failed set is exactly
the middle service. -/
theorem restartAllServices_fanout_witness :
    (restartAllServices (fun n _ => n == "service_2")
      [⟨"c", "service_1", 1, 1, "ACTIVE", 0, 0⟩,
       ⟨"c", "service_2", 1, 1, "ACTIVE", 0, 0⟩,
       ⟨"c", "service_3", 1, 1, "ACTIVE", 0, 0⟩]).1 =
      [("service_1", "c"), ("service_2", "c"), ("service_3", "c")] ∧
    (restartAllServices (fun n _ => n == "service_2")
      [⟨"c", "service_1", 1, 1, "ACTIVE", 0, 0⟩,
       ⟨"c", "service_2", 1, 1, "ACTIVE", 0, 0⟩,
       ⟨"c", "service_3", 1, 1, "ACTIVE", 0, 0⟩]).2 = ["service_2"] := by
  have h := restartAllServices_fanout (fun n _ => n == "service_2")
    [⟨"c", "service_1", 1, 1, "ACTIVE", 0, 0⟩,
     ⟨"c", "service_2", 1, 1, "ACTIVE", 0, 0⟩,
     ⟨"c", "service_3", 1, 1, "ACTIVE", 0, 0⟩]
  exact ⟨h.1.trans (by decide), h.2.trans (by decide)⟩

/-! ## Filtering (ui.go `filterServices`) -/

/-- Go `strings.Contains` on rune lists: true when the needle occurs as a
contiguous substring of the haystack (the empty needle is always
contained). -/
def listContains {α : Type} [DecidableEq α] : List α → List α → Bool
  | hay, needle =>
    match hay with
    | [] => needle.isEmpty
    | a :: l => needle.isPrefixOf (a :: l) || listContains l needle

theorem listContains_iff {α : Type} [DecidableEq α] (hay needle : List α) :
    listContains hay needle = true ↔ needle <:+: hay := by
  induction hay with
  | nil => simp [listContains, List.isEmpty_iff, List.infix_nil]
  | cons a l ih =>
    simp [listContains, List.infix_cons_iff, ih, List.isPrefixOf_iff_prefix]

/-- Go `strings.ToLower` modelled as the per-rune simple case mapping
(exact on the ASCII service names the tool handles). -/
def goToLower (s : String) : List Char := s.data.map Char.toLower

/-- `filterServices` (ui.go:316-328): the empty query keeps the current
service list unchanged; a nonempty query keeps the services whose lowercased
name contains the lowercased query as a substring, in their original order. -/
def filterServices (currentServices : List ServiceDetails) (query : String) :
    List ServiceDetails :=
  if query = "" then currentServices
  else currentServices.filter (fun svc =>
    listContains (goToLower svc.serviceName) (goToLower query))

/-- C8: filtering keeps exactly the services whose name contains the query
as a case-insensitive substring — the result is the order-preserving
sublist of the input selected by that substring test — and the empty query
yields the full list. -/
theorem filterServices_case_insensitive
    (currentServices : List ServiceDetails) (query : String) :
    filterServices currentServices "" = currentServices ∧
    List.Sublist (filterServices currentServices query) currentServices ∧
    (query ≠ "" →
      filterServices currentServices query =
        currentServices.filter (fun svc =>
          decide (goToLower query <:+: goToLower svc.serviceName))) := by
  refine ⟨by simp [filterServices], ?_, ?_⟩
  · by_cases hq : query = ""
    · simp [filterServices, hq]
    · simp only [filterServices, if_neg hq]
      exact List.filter_sublist currentServices
  · intro hq
    simp only [filterServices, if_neg hq]
    apply List.filter_congr
    intro svc _
    rcases h : listContains (goToLower svc.serviceName) (goToLower query) with _ | _
    · have hni := (not_iff_not.mpr (listContains_iff (goToLower svc.serviceName)
        (goToLower query))).mp (by simp [h])
      simp [hni]
    · have hi := (listContains_iff (goToLower svc.serviceName) (goToLower query)).mp h
      simp [hi]

/-- Witness for C8: the spec's example — query "prod" against
prod-api, staging-api, prod-worker keeps exactly prod-api and prod-worker
in their original relative order. -/
theorem filterServices_case_insensitive_witness :
    filterServices
      [⟨"c", "prod-api", 1, 1, "ACTIVE", 0, 0⟩,
       ⟨"c", "staging-api", 1, 1, "ACTIVE", 0, 0⟩,
       ⟨"c", "prod-worker", 1, 1, "ACTIVE", 0, 0⟩] "prod" =
    [⟨"c", "prod-api", 1, 1, "ACTIVE", 0, 0⟩,
     ⟨"c", "prod-worker", 1, 1, "ACTIVE", 0, 0⟩] := by
  have h := (filterServices_case_insensitive
    [⟨"c", "prod-api", 1, 1, "ACTIVE", 0, 0⟩,
     ⟨"c", "staging-api", 1, 1, "ACTIVE", 0, 0⟩,
     ⟨"c", "prod-worker", 1, 1, "ACTIVE", 0, 0⟩] "prod").2.2 (by decide)
  exact h.trans (by decide)

/-! ## Desired-count prompt (ui.go `showDesiredCountPrompt`) -/

/-- The sign-handling step of `strconv.Atoi`: an optional leading plus or
minus sign is stripped and recorded; everything after it must be digits. -/
def parseSign (raw : List Char) : Int × List Char :=
  match raw with
  | c :: rest =>
    if c = '+' then (1, rest)
    else if c = '-' then (-1, rest)
    else (1, c :: rest)
  | [] => (1, [])

/-- The value of a digit run, as accumulated by `strconv.Atoi`. -/
def digitsToNat (digits : List Char) : Nat :=
  digits.foldl (fun acc c => acc * 10 + (c.toNat - 48)) 0

/-- Go `strconv.Atoi` (equivalently `ParseInt(s, 10, 64)` on a 64-bit
platform): an optional leading sign followed by one or more ASCII digits;
the empty string, a bare sign, any non-digit character, and 64-bit overflow
all yield an error (`none`). A leading minus sign is accepted: Atoi parses
negative integers. -/
def atoi (s : String) : Option Int :=
  let sign := (parseSign s.data).1
  let digits := (parseSign s.data).2
  if digits.isEmpty then none
  else if digits.all Char.isDigit then
    let v : Int := sign * (digitsToNat digits : Nat)
    if -9223372036854775808 ≤ v ∧ v ≤ 9223372036854775807 then some v
    else none
  else none

/-- The outcome of submitting the desired-count prompt: either a local
validation message with no network call, or an `UpdateService` gateway call
carrying the parsed value. -/
inductive PromptOutcome where
  | localValidationMessage : PromptOutcome
  | updateCall : Int → PromptOutcome
deriving Repr, DecidableEq

/-- The Enter-key handler of `showDesiredCountPrompt` (ui.go:519-544): the
typed text goes through `strconv.Atoi`; a parse error shows the local
message "Invalid input. Please enter a positive integer." and returns
before any gateway call, while any successfully parsed value is passed on
to `UpdateServiceDesiredCount`. -/
def showDesiredCountPromptSubmit (text : String) : PromptOutcome :=
  match atoi text with
  | none => .localValidationMessage
  | some v => .updateCall v

/-- Any text with a non-digit character after the first position fails
`strconv.Atoi`. -/
theorem atoi_none_of_nondigit (s : String) (c : Char) (hc : c ∈ s.data.drop 1)
    (hcd : ¬ c.isDigit) : atoi s = none := by
  have hmem : c ∈ (parseSign s.data).2 := by
    cases hraw : s.data with
    | nil => rw [hraw] at hc; simp at hc
    | cons a rest =>
      rw [hraw] at hc
      have hcrest : c ∈ rest := by simpa using hc
      simp only [parseSign]
      by_cases ha : a = '+'
      · simpa [ha]
      · by_cases hb : a = '-'
        · simpa [ha, hb]
        · simp only [if_neg ha, if_neg hb]
          exact List.mem_cons_of_mem a hcrest
  have hall : (parseSign s.data).2.all Char.isDigit = false := by
    rcases Bool.eq_false_or_eq_true ((parseSign s.data).2.all Char.isDigit) with h | h
    · exact absurd (List.all_eq_true.mp h c hmem) hcd
    · exact h
  simp only [atoi]
  by_cases he : (parseSign s.data).2.isEmpty
  · simp [he]
  · simp [he, hall]

/-- Counterexample to C7 as stated: the typed string "-1" is not a
non-negative integer, yet it parses under `strconv.Atoi` and triggers an
`UpdateService` gateway call carrying the negative value, with no local
validation message. -/
theorem showDesiredCountPrompt_negative_reaches_gateway :
    showDesiredCountPromptSubmit "-1" = PromptOutcome.updateCall (-1) ∧
    (-1 : Int) < 0 := by
  exact ⟨by decide, by decide⟩

/-- C7 (amended): the prompt validates the typed value locally only as an
integer: text that fails `strconv.Atoi` — the empty string, or any
non-digit character after the first position — produces a local validation
message and triggers no `UpdateService` call, and a gateway call happens
exactly when Atoi succeeds; successfully parsed negative integers are
forwarded to the Gateway rather than rejected. -/
theorem showDesiredCountPrompt_validation (text : String) :
    (atoi text = none ↔
      showDesiredCountPromptSubmit text = .localValidationMessage) ∧
    (∀ v, atoi text = some v →
      showDesiredCountPromptSubmit text = .updateCall v) ∧
    (text = "" → showDesiredCountPromptSubmit text = .localValidationMessage) ∧
    (∀ c ∈ text.data.drop 1, ¬ c.isDigit →
      showDesiredCountPromptSubmit text = .localValidationMessage) := by
  refine ⟨⟨?_, ?_⟩, ?_, ?_, ?_⟩
  · intro h
    simp [showDesiredCountPromptSubmit, h]
  · intro h
    cases ha : atoi text with
    | none => rfl
    | some v =>
      rw [showDesiredCountPromptSubmit, ha] at h
      simp at h
  · intro v h
    simp [showDesiredCountPromptSubmit, h]
  · intro h
    subst h
    rfl
  · intro c hc hcd
    simp [showDesiredCountPromptSubmit, atoi_none_of_nondigit text c hc hcd]

/-- Witness for C7 (amended) at concrete inputs: "abc" fails validation
locally and "7" reaches the gateway with value 7. -/
theorem showDesiredCountPrompt_validation_witness :
    showDesiredCountPromptSubmit "abc" = PromptOutcome.localValidationMessage ∧
    showDesiredCountPromptSubmit "7" = PromptOutcome.updateCall 7 := by
  refine ⟨?_, ?_⟩
  · exact (showDesiredCountPrompt_validation "abc").2.2.2 'b' (by decide) (by decide)
  · exact (showDesiredCountPrompt_validation "7").2.1 7 (by decide)

/-! ## Metrics enrichment (metrics.go `getMetric`, `getServiceMetrics`) -/

/-- The part of a `GetMetricStatistics` response the code reads: the
`Average` of each returned datapoint. -/
structure CloudWatchResponse where
  datapointAverages : List Rat
deriving Repr, DecidableEq

/-- `getMetric` (metrics.go:39-69) applied to the outcome of the CloudWatch
call (`none` models a failed call): a transport error propagates as an
error, an empty datapoint list yields the value 0 without an error, and
otherwise the first datapoint's average is returned. -/
def getMetric (response : Option CloudWatchResponse) : Option Rat :=
  match response with
  | none => none
  | some r =>
    match r.datapointAverages with
    | [] => some 0
    | d :: _ => some d

/-- `ServiceMetrics` (metrics.go:15-18). -/
structure ServiceMetrics where
  cpuUtilization : Rat
  memoryUtilization : Rat
deriving Repr, DecidableEq

/-- `getServiceMetrics` (metrics.go:20-38): queries CPU and memory
utilization; a failure of either query fails the pair. -/
def getServiceMetrics (cpuResponse memResponse : Option CloudWatchResponse) :
    Option ServiceMetrics :=
  match getMetric cpuResponse with
  | none => none
  | some cpu =>
    match getMetric memResponse with
    | none => none
    | some mem => some ⟨cpu, mem⟩

/-- The record construction of the metrics-enriched
`describeServicesInBatches` loop body (internal/aws/ecs.go variant with
CloudWatch enrichment, lines 155-170 of that file): on a metrics failure
the error is logged and the metrics are replaced by `{0, 0}`; the five
descriptive fields are filled from the described service either way. -/
def mkServiceDetailsWithMetrics (cluster : String) (svc : EcsService)
    (cpuResponse memResponse : Option CloudWatchResponse) : ServiceDetails :=
  let metrics := (getServiceMetrics cpuResponse memResponse).getD ⟨0, 0⟩
  { cluster := cluster, serviceName := svc.serviceName,
    runningCount := svc.runningCount, desiredCount := svc.desiredCount,
    status := svc.status, cpuUtilization := metrics.cpuUtilization,
    memoryUtilization := metrics.memoryUtilization }

/-- C9: a metrics failure never fails the service record and changes only
the two utilization fields — the five descriptive fields do not depend on
the metric responses at all; when either CloudWatch query errors both
utilization fields are 0, and a query that returns no datapoints yields 0
without being an error. -/
theorem metrics_failure_frame (cluster : String) (svc : EcsService)
    (cpuResponse memResponse : Option CloudWatchResponse) :
    ((mkServiceDetailsWithMetrics cluster svc cpuResponse memResponse).cluster =
        cluster ∧
     (mkServiceDetailsWithMetrics cluster svc cpuResponse memResponse).serviceName =
        svc.serviceName ∧
     (mkServiceDetailsWithMetrics cluster svc cpuResponse memResponse).runningCount =
        svc.runningCount ∧
     (mkServiceDetailsWithMetrics cluster svc cpuResponse memResponse).desiredCount =
        svc.desiredCount ∧
     (mkServiceDetailsWithMetrics cluster svc cpuResponse memResponse).status =
        svc.status) ∧
    (cpuResponse = none ∨ memResponse = none →
      (mkServiceDetailsWithMetrics cluster svc cpuResponse memResponse).cpuUtilization = 0 ∧
      (mkServiceDetailsWithMetrics cluster svc cpuResponse memResponse).memoryUtilization = 0) ∧
    getMetric (some ⟨[]⟩) = some 0 ∧
    (mkServiceDetailsWithMetrics cluster svc (some ⟨[]⟩) (some ⟨[]⟩)).cpuUtilization = 0 ∧
    (mkServiceDetailsWithMetrics cluster svc (some ⟨[]⟩) (some ⟨[]⟩)).memoryUtilization = 0 := by
  refine ⟨⟨rfl, rfl, rfl, rfl, rfl⟩, ?_, rfl, rfl, rfl⟩
  rintro (rfl | rfl)
  · exact ⟨rfl, rfl⟩
  · constructor <;>
      simp [mkServiceDetailsWithMetrics, getServiceMetrics] <;>
      cases getMetric cpuResponse <;> rfl

/-- Witness for C9: with a failed CPU query the record keeps its
descriptive fields and zeroes both utilizations. -/
theorem metrics_failure_frame_witness :
    (mkServiceDetailsWithMetrics "c" ⟨"api", 2, 3, "ACTIVE", []⟩ none
        (some ⟨[55]⟩)).serviceName = "api" ∧
    (mkServiceDetailsWithMetrics "c" ⟨"api", 2, 3, "ACTIVE", []⟩ none
        (some ⟨[55]⟩)).cpuUtilization = 0 ∧
    (mkServiceDetailsWithMetrics "c" ⟨"api", 2, 3, "ACTIVE", []⟩ none
        (some ⟨[55]⟩)).memoryUtilization = 0 := by
  have h := metrics_failure_frame "c" ⟨"api", 2, 3, "ACTIVE", []⟩ none (some ⟨[55]⟩)
  exact ⟨h.1.2.1, (h.2.1 (Or.inl rfl)).1, (h.2.1 (Or.inl rfl)).2⟩

/-! ## Desired-count update (ecs.go `UpdateServiceDesiredCount`) -/

/-- Go's conversion `int32(desiredCount)` from `int64`: two's-complement
truncation to 32 bits — reduction modulo 2^32 into the interval
[-2^31, 2^31). -/
def int32ofInt64 (v : Int) : Int :=
  let m := v % 4294967296
  if m < 2147483648 then m else m - 4294967296

/-- The `UpdateServiceInput` fields set by `UpdateServiceDesiredCount`. -/
structure UpdateServiceCall where
  cluster : String
  service : String
  desiredCount : Int
deriving Repr, DecidableEq

/-- `UpdateServiceDesiredCount` (ecs.go:166-178): builds the update input
with `aws.Int32(int32(desiredCount))` — no range or sign check — issues the
`UpdateService` call (whose transport outcome is the oracle
`updateServiceFails`), and errors exactly when the call fails. The returned
pair is the call that was issued and the error result. -/
def UpdateServiceDesiredCount (updateServiceFails : UpdateServiceCall → Bool)
    (serviceName cluster : String) (desiredCount : Int) :
    UpdateServiceCall × Option String :=
  let call : UpdateServiceCall := ⟨cluster, serviceName, int32ofInt64 desiredCount⟩
  (call,
   if updateServiceFails call then
     some ("failed to update service " ++ serviceName ++ " in cluster " ++ cluster)
   else none)

/-- C10: `UpdateServiceDesiredCount` performs no local range or sign check:
for every input it issues the provider call with the value converted to
int32 (congruent modulo 2^32 and landing in [-2^31, 2^31), so in-range
values — negative ones included — pass through unchanged), and it returns
an error exactly when the provider call itself fails. -/
theorem updateServiceDesiredCount_forwarding
    (updateServiceFails : UpdateServiceCall → Bool)
    (serviceName cluster : String) (desiredCount : Int) :
    (UpdateServiceDesiredCount updateServiceFails serviceName cluster
       desiredCount).1 = ⟨cluster, serviceName, int32ofInt64 desiredCount⟩ ∧
    (-2147483648 ≤ int32ofInt64 desiredCount ∧
      int32ofInt64 desiredCount < 2147483648) ∧
    (∃ k : Int, int32ofInt64 desiredCount = desiredCount + 4294967296 * k) ∧
    (-2147483648 ≤ desiredCount → desiredCount < 2147483648 →
      int32ofInt64 desiredCount = desiredCount) ∧
    ((UpdateServiceDesiredCount updateServiceFails serviceName cluster
        desiredCount).2 = none ↔
      updateServiceFails ⟨cluster, serviceName, int32ofInt64 desiredCount⟩ =
        false) := by
  have h0 : (0 : Int) ≤ desiredCount % 4294967296 :=
    Int.emod_nonneg desiredCount (by norm_num)
  have h1 : desiredCount % 4294967296 < 4294967296 :=
    Int.emod_lt_of_pos desiredCount (by norm_num)
  have h2 : desiredCount % 4294967296 =
      desiredCount - 4294967296 * (desiredCount / 4294967296) :=
    Int.emod_def desiredCount 4294967296
  refine ⟨rfl, ?_, ?_, ?_, ?_⟩
  · simp only [int32ofInt64]
    by_cases hm : desiredCount % 4294967296 < 2147483648 <;> omega
  · simp only [int32ofInt64]
    by_cases hm : desiredCount % 4294967296 < 2147483648
    · exact ⟨-(desiredCount / 4294967296), by omega⟩
    · exact ⟨-(desiredCount / 4294967296) - 1, by omega⟩
  · intro hlo hhi
    simp only [int32ofInt64]
    by_cases hm : desiredCount % 4294967296 < 2147483648 <;> omega
  · simp only [UpdateServiceDesiredCount]
    cases h : updateServiceFails ⟨cluster, serviceName, int32ofInt64 desiredCount⟩ with
    | true => simp [h]
    | false => simp [h]

/-- Witness for C10: the negative in-range value -5 is forwarded unchanged
(no local sign check), and the out-of-range value 2^31 wraps to -2^31. -/
theorem updateServiceDesiredCount_forwarding_witness :
    (UpdateServiceDesiredCount (fun _ => false) "api" "c" (-5)).1.desiredCount =
      -5 ∧
    (UpdateServiceDesiredCount (fun _ => false) "api" "c" (-5)).2 = none ∧
    int32ofInt64 2147483648 = -2147483648 := by
  have h := updateServiceDesiredCount_forwarding (fun _ => false) "api" "c" (-5)
  refine ⟨?_, ?_, by decide⟩
  · rw [h.1]
    exact h.2.2.2.1 (by decide) (by decide)
  · exact h.2.2.2.2.mpr rfl

/-! ## Poll loop (ecs.go `PollServiceUpdates`) -/

/-- The events the poll goroutine's `select` can observe: a timer tick or
the cancellation signal (`ctx.Done()`). The real-time statement "slightly
more than the interval T has elapsed" corresponds to the ticker having
fired at least once, i.e. to a `tick` event preceding any `cancel`. -/
inductive PollEvent where
  | tick : PollEvent
  | cancel : PollEvent
deriving Repr, DecidableEq

/-- The tick body of `PollServiceUpdates` (ecs.go:309-317): one
`GetServiceDetails` call per tracked service; a failed call leaves the Go
zero value at that service's index. -/
def pollTickFetch (getDetails : String → String → Option ServiceDetails)
    (services : List ServiceDetails) : List ServiceDetails :=
  services.map (fun svc =>
    (getDetails svc.serviceName svc.cluster).getD ServiceDetails.zeroValue)

/-- The poll goroutine of `PollServiceUpdates` (ecs.go:296-324), run over a
sequence of observed events: on `cancel` it returns (the deferred `close`
closes the update channel, second component `true`); on a tick it performs
the fetch for that tick and publishes the snapshot. The loop body is
sequential: each tick's fetch completes before the snapshot is sent and
before the next event is examined. `fetch k` is the snapshot produced by
the k-th tick's fetch cycle. -/
def PollServiceUpdatesRun (fetch : Nat → List ServiceDetails) :
    List PollEvent → Nat → List (List ServiceDetails) × Bool
  | [], _ => ([], false)
  | .cancel :: _, _ => ([], true)
  | .tick :: rest, n =>
    let r := PollServiceUpdatesRun fetch rest (n + 1)
    (fetch n :: r.1, r.2)

/-- Observable actions of the poll goroutine, used to state that fetch
cycles never overlap: the k-th fetch starts, the k-th fetch completes, the
k-th snapshot is published, the update stream is closed. -/
inductive PollAction where
  | fetchBegin : Nat → PollAction
  | fetchDone : Nat → PollAction
  | publish : Nat → PollAction
  | streamClosed : PollAction
deriving Repr, DecidableEq

/-- The action trace of the poll goroutine over an event sequence,
mirroring the sequential order of ecs.go:304-320: each tick produces
fetch-begin, fetch-done, publish in that order; cancellation produces the
stream close and nothing further. -/
def PollServiceUpdatesActions : List PollEvent → Nat → List PollAction
  | [], _ => []
  | .cancel :: _, _ => [.streamClosed]
  | .tick :: rest, n =>
    .fetchBegin n :: .fetchDone n :: .publish n ::
      PollServiceUpdatesActions rest (n + 1)

/-- The number of timer ticks that occur strictly before the first
cancellation. -/
def ticksBeforeCancel : List PollEvent → Nat
  | [] => 0
  | .cancel :: _ => 0
  | .tick :: rest => ticksBeforeCancel rest + 1

def isFetchBegin : PollAction → Bool
  | .fetchBegin _ => true
  | _ => false

def isFetchDone : PollAction → Bool
  | .fetchDone _ => true
  | _ => false

theorem pollRun_length (fetch : Nat → List ServiceDetails) :
    ∀ (events : List PollEvent) (n : Nat),
      (PollServiceUpdatesRun fetch events n).1.length =
        ticksBeforeCancel events := by
  intro events
  induction events with
  | nil => intro n; rfl
  | cons e rest ih =>
    intro n
    cases e with
    | cancel => rfl
    | tick =>
      simp only [PollServiceUpdatesRun, ticksBeforeCancel, List.length_cons, ih]

theorem pollRun_cancel (fetch : Nat → List ServiceDetails) :
    ∀ (pre post : List PollEvent) (n : Nat),
      PollServiceUpdatesRun fetch (pre ++ PollEvent.cancel :: post) n =
        ((PollServiceUpdatesRun fetch (pre ++ [PollEvent.cancel]) n).1, true) := by
  intro pre
  induction pre with
  | nil => intro post n; rfl
  | cons e rest ih =>
    intro post n
    cases e with
    | cancel => rfl
    | tick =>
      simp only [List.cons_append, PollServiceUpdatesRun, List.append_eq]
      rw [ih post (n + 1)]

theorem pollActions_cancel :
    ∀ (pre post : List PollEvent) (n : Nat),
      PollServiceUpdatesActions (pre ++ PollEvent.cancel :: post) n =
        PollServiceUpdatesActions (pre ++ [PollEvent.cancel]) n := by
  intro pre
  induction pre with
  | nil => intro post n; rfl
  | cons e rest ih =>
    intro post n
    cases e with
    | cancel => rfl
    | tick =>
      simp only [List.cons_append, PollServiceUpdatesActions, List.append_eq]
      rw [ih post (n + 1)]

theorem pollActions_no_overlap :
    ∀ (events : List PollEvent) (n : Nat) (p q : List PollAction),
      PollServiceUpdatesActions events n = p ++ q →
      p.countP isFetchBegin ≤ p.countP isFetchDone + 1 := by
  intro events
  induction events with
  | nil =>
    intro n p q h
    have hp : p = [] := (List.append_eq_nil.mp h.symm).1
    subst hp
    simp
  | cons e rest ih =>
    intro n p q h
    cases e with
    | cancel =>
      simp only [PollServiceUpdatesActions] at h
      rcases List.append_eq_cons_iff.mp h.symm with ⟨hp, _⟩ | ⟨p₁, hp, hpq⟩
      · subst hp; simp
      · have hp₁ : p₁ = [] := (List.append_eq_nil.mp hpq.symm).1
        subst hp₁
        subst hp
        simp [isFetchBegin, isFetchDone]
    | tick =>
      simp only [PollServiceUpdatesActions] at h
      rcases List.append_eq_cons_iff.mp h.symm with ⟨hp, _⟩ | ⟨p₁, hp, hpq⟩
      · subst hp; simp
      · rcases List.append_eq_cons_iff.mp hpq.symm with ⟨hp₁, _⟩ | ⟨p₂, hp₁, hpq₂⟩
        · subst hp₁; subst hp
          simp [List.countP_cons, isFetchBegin, isFetchDone]
        · rcases List.append_eq_cons_iff.mp hpq₂.symm with ⟨hp₂, _⟩ | ⟨p₃, hp₂, hpq₃⟩
          · subst hp₂; subst hp₁; subst hp
            simp [List.countP_cons, isFetchBegin, isFetchDone]
          · subst hp₂; subst hp₁; subst hp
            have hrec := ih (n + 1) p₃ q hpq₃
            simp [List.countP_cons, isFetchBegin, isFetchDone]
            omega

/-- C5: the poll loop publishes exactly one snapshot per timer tick that
elapses before cancellation (so at least one snapshot once a tick has
fired, i.e. once slightly more than the interval has passed); it never has
two fetch cycles open at once (in every prefix of the action trace the
number of started fetches exceeds the completed ones by at most one); and
once the cancellation signal fires it closes the update stream and the
events after the cancellation contribute no further publishes or actions. -/
theorem pollServiceUpdates_temporal
    (fetch : Nat → List ServiceDetails) (events : List PollEvent) (n : Nat) :
    (PollServiceUpdatesRun fetch events n).1.length = ticksBeforeCancel events ∧
    (∀ pre post, events = pre ++ PollEvent.cancel :: post →
      PollServiceUpdatesRun fetch events n =
        ((PollServiceUpdatesRun fetch (pre ++ [PollEvent.cancel]) n).1, true)) ∧
    (∀ p q, PollServiceUpdatesActions events n = p ++ q →
      p.countP isFetchBegin ≤ p.countP isFetchDone + 1) ∧
    (∀ pre post, events = pre ++ PollEvent.cancel :: post →
      PollServiceUpdatesActions events n =
        PollServiceUpdatesActions (pre ++ [PollEvent.cancel]) n) := by
  refine ⟨pollRun_length fetch events n, ?_, pollActions_no_overlap events n, ?_⟩
  · intro pre post h
    subst h
    exact pollRun_cancel fetch pre post n
  · intro pre post h
    subst h
    exact pollActions_cancel pre post n

/-- Witness for C5: over the event sequence tick, cancel, tick — one tick
elapses, then cancellation — exactly one snapshot is published, the stream
is closed, and the post-cancellation tick publishes nothing. -/
theorem pollServiceUpdates_temporal_witness :
    (PollServiceUpdatesRun
      (fun _ => pollTickFetch (fun _ _ => none) [])
      [PollEvent.tick, PollEvent.cancel, PollEvent.tick] 0).1.length = 1 ∧
    (PollServiceUpdatesRun
      (fun _ => pollTickFetch (fun _ _ => none) [])
      [PollEvent.tick, PollEvent.cancel, PollEvent.tick] 0).2 = true := by
  have h := pollServiceUpdates_temporal
    (fun _ => pollTickFetch (fun _ _ => none) [])
    [PollEvent.tick, PollEvent.cancel, PollEvent.tick] 0
  refine ⟨h.1.trans (by decide), ?_⟩
  have h2 := h.2.1 [PollEvent.tick] [PollEvent.tick] (by decide)
  rw [h2]
